import Mathlib

/-!
Verification of the ripin RPN-expression engine (`src/expression.rs`,
`src/lib.rs`, `src/stack.rs`, `src/evaluate/{integer,float}.rs`,
`src/variable/*`).

Modelling conventions:
* The `Stack<T>` (a `Vec<T>` pushed/popped at the end) is modelled as a
  `List T` whose head is the top of the stack.
* Rust `usize` balances are modelled as `Nat`; `checked_sub` is modelled by
  an explicit `≤` test.  (A `usize` balance can only overflow when an
  evaluator declares arities near `2 ^ 64`; the explicit `as usize` cast in
  `compute_stack_max` is modelled exactly, see `intAsUsize`.)
* Fallible Rust functions returning `Result`/`Option` are modelled with
  `Except`/`Option`.  Panics (`unwrap` of a failed pop, the
  `expect("TODO Variable not found!")`, unchecked arithmetic overflow)
  are modelled by dedicated outcome constructors, since they leave the
  `Result` channel.
-/

deriving instance DecidableEq for Except

namespace Ripin

/-- Token sum type, from `Arithm` in `src/expression.rs`. -/
inductive Arithm (T V E : Type) where
  | Operand : T → Arithm T V E
  | Variable : V → Arithm T V E
  | Evaluator : E → Arithm T V E
deriving DecidableEq

/-- `OperandErr` from `src/expression.rs` (source spells the second variant
`NotEnoughOperand`). -/
inductive OperandErr where
  | TooManyOperands : OperandErr
  | NotEnoughOperand : OperandErr
deriving DecidableEq

/-- `ExprResult` from `src/expression.rs`: the construction-time error,
either an arity error or a composite classification error that carries all
three individual conversion failures. -/
inductive ExprResult (A B C : Type) where
  | OperandErr : OperandErr → ExprResult A B C
  | InvalidToken : A → B → C → ExprResult A B C
deriving DecidableEq

/-- Outcome of one `evaluate` call of an evaluator on the stack
(`fn evaluate(self, stack) -> Result<(), Err>` plus the panics that can
escape it): `ok` is `Ok(())` together with the mutated stack, `err` is the
returned `Err`, `underflow` is an `unwrap()` of a failed `pop()` (too few
operands on the stack), `panicked` is any other panic (unchecked integer
overflow). -/
inductive StepOut (T ε : Type) where
  | ok : List T → StepOut T ε
  | err : ε → StepOut T ε
  | underflow : StepOut T ε
  | panicked : StepOut T ε
deriving DecidableEq

/-- The `Evaluate` trait from `src/evaluate/mod.rs`, as an explicit
dictionary: arity declarations plus the execution step on the whole stack. -/
structure Evaluate (T E ε : Type) where
  operands_needed : E → Nat
  operands_generated : E → Nat
  evaluate : E → List T → StepOut T ε

/-- `pop_two_operands` from `src/lib.rs`: removes the last two elements and
returns them as `(earlier, later)`; the remaining stack is returned
explicitly since the Rust function mutates it in place. -/
def pop_two_operands {T : Type} (stack : List T) : Option ((T × T) × List T) :=
  if 2 ≤ stack.length then
    match stack with
    | a :: b :: rest => some ((b, a), rest)
    | _ => none
  else none

/-- The running-balance scan of `Expression::check_validity`
(`src/expression.rs`): `num_operands` starts at the given value; operands
and variables add 1; an evaluator does a checked subtraction of
`operands_needed` (failing with `NotEnoughOperand` on underflow) and then
adds `operands_generated`.  Returns the final balance. -/
def validityBalance {T V E ε : Type} (d : Evaluate T E ε) :
    List (Arithm T V E) → Nat → Except OperandErr Nat
  | [], n => .ok n
  | .Operand _ :: rest, n => validityBalance d rest (n + 1)
  | .Variable _ :: rest, n => validityBalance d rest (n + 1)
  | .Evaluator ev :: rest, n =>
    if d.operands_needed ev ≤ n then
      validityBalance d rest (n - d.operands_needed ev + d.operands_generated ev)
    else .error .NotEnoughOperand

/-- `Expression::check_validity` from `src/expression.rs`: run the balance
scan from 0 and require a final balance of exactly 1. -/
def check_validity {T V E ε : Type} (d : Evaluate T E ε)
    (expr : List (Arithm T V E)) : Except OperandErr Unit :=
  match validityBalance d expr 0 with
  | .error e => .error e
  | .ok 0 => .error .NotEnoughOperand
  | .ok 1 => .ok ()
  | .ok _ => .error .TooManyOperands

/-- The Rust `as usize` cast of a (signed, 64-bit) value: reinterpretation
modulo `2 ^ 64`. -/
def intAsUsize (i : Int) : Nat := (i % (2 ^ 64 : Int)).toNat

/-- The per-token balance delta mapped over the expression in
`Expression::compute_stack_max`: 1 for operands and variables,
`generated - needed` (as `isize`) for evaluators.  (The `as isize` casts of
the two arities are modelled as exact `Int` coercions; they only differ from
the source for evaluators declaring arities of `2 ^ 63` or more.) -/
def arithmCount {T V E ε : Type} (d : Evaluate T E ε) : Arithm T V E → Int
  | .Operand _ => 1
  | .Variable _ => 1
  | .Evaluator ev => (d.operands_generated ev : Int) - (d.operands_needed ev : Int)

/-- One step of the fold in `Expression::compute_stack_max`: the state is
`(max, acc_count)`, the new accumulator is `(acc_count + count) as usize`,
and the maximum is updated when exceeded. -/
def stackMaxStep (p : Nat × Int) (count : Int) : Nat × Int :=
  let acc : Nat := intAsUsize (p.2 + count)
  if acc > p.1 then (acc, (acc : Int)) else (p.1, (acc : Int))

/-- `Expression::compute_stack_max` from `src/expression.rs`: map each token
to its balance delta and fold, tracking the maximum value reached by the
running accumulator (both components start at 0). -/
def compute_stack_max {T V E ε : Type} (d : Evaluate T E ε)
    (expr : List (Arithm T V E)) : Nat :=
  ((expr.map (arithmCount d)).foldl stackMaxStep ((0 : Nat), (0 : Int))).1

/-- The `Expression` struct from `src/expression.rs`: the precomputed
`max_stack` plus the classified token sequence. -/
structure Expression (T V E : Type) where
  max_stack : Nat
  expr : List (Arithm T V E)
deriving DecidableEq

/-- The per-token classification of `Expression::from_iter`: try the
Evaluator conversion, then the Variable conversion, then the Operand
conversion, and aggregate all three errors when everything fails. -/
def classify {A T V E e1 e2 e3 : Type}
    (econv : A → Except e1 E) (vconv : A → Except e2 V) (oconv : A → Except e3 T)
    (token : A) : Except (ExprResult e1 e2 e3) (Arithm T V E) :=
  match econv token with
  | .ok ev => .ok (.Evaluator ev)
  | .error eval_err =>
    match vconv token with
    | .ok v => .ok (.Variable v)
    | .error var_err =>
      match oconv token with
      | .ok op => .ok (.Operand op)
      | .error op_err => .error (.InvalidToken eval_err var_err op_err)

/-- The `collect::<Result<Vec<_>, _>>()` of the classification map in
`Expression::from_iter`: classify every token, stopping at the first
failure. -/
def classifyAll {A T V E e1 e2 e3 : Type}
    (econv : A → Except e1 E) (vconv : A → Except e2 V) (oconv : A → Except e3 T) :
    List A → Except (ExprResult e1 e2 e3) (List (Arithm T V E))
  | [] => .ok []
  | tok :: toks =>
    match classify econv vconv oconv tok with
    | .error e => .error e
    | .ok a =>
      match classifyAll econv vconv oconv toks with
      | .error e => .error e
      | .ok rest => .ok (a :: rest)

/-- `Expression::from_iter` from `src/expression.rs`: classify all tokens,
check arity validity, and on success build the expression with its
precomputed `max_stack`. -/
def from_iter {A T V E ε e1 e2 e3 : Type} (d : Evaluate T E ε)
    (econv : A → Except e1 E) (vconv : A → Except e2 V) (oconv : A → Except e3 T)
    (toks : List A) : Except (ExprResult e1 e2 e3) (Expression T V E) :=
  match classifyAll econv vconv oconv toks with
  | .error e => .error e
  | .ok final_expr =>
    match check_validity d final_expr with
    | .ok _ => .ok ⟨compute_stack_max d final_expr, final_expr⟩
    | .error err => .error (.OperandErr err)

/-- Outcome of replaying a token sequence against a stack
(`Expression::evaluate_with_variables` before the final pop):
`varNotFound` is the `expect("TODO Variable not found!")` panic. -/
inductive RunOut (T ε : Type) where
  | ok : List T → RunOut T ε
  | err : ε → RunOut T ε
  | underflow : RunOut T ε
  | varNotFound : RunOut T ε
  | panicked : RunOut T ε
deriving DecidableEq

/-- The token-replay loop of `Expression::evaluate_with_variables`
(`src/expression.rs`): operands are pushed, variables are resolved through
the external container (`lookup` models `variables.get_variable(var.into())`)
and pushed, evaluators run on the stack with the `?` operator propagating
their error immediately. -/
def runTokens {T V E ε : Type} (d : Evaluate T E ε) (lookup : V → Option T) :
    List (Arithm T V E) → List T → RunOut T ε
  | [], stack => .ok stack
  | .Operand t :: rest, stack => runTokens d lookup rest (t :: stack)
  | .Variable v :: rest, stack =>
    match lookup v with
    | some t => runTokens d lookup rest (t :: stack)
    | none => .varNotFound
  | .Evaluator ev :: rest, stack =>
    match d.evaluate ev stack with
    | .ok stack' => runTokens d lookup rest stack'
    | .err e => .err e
    | .underflow => .underflow
    | .panicked => .panicked

/-- Final outcome of `Expression::evaluate_with_variables`: the result
value, a returned evaluator error, or one of the panic outcomes. -/
inductive EvalOut (T ε : Type) where
  | ok : T → EvalOut T ε
  | err : ε → EvalOut T ε
  | underflow : EvalOut T ε
  | varNotFound : EvalOut T ε
  | panicked : EvalOut T ε
deriving DecidableEq

/-- `Expression::evaluate_with_variables` from `src/expression.rs`: replay
the tokens against a fresh stack, then `stack.pop().unwrap()` the result
(an empty final stack would be a pop-underflow panic). -/
def evaluate_with_variables {T V E ε : Type} (d : Evaluate T E ε)
    (lookup : V → Option T) (e : Expression T V E) : EvalOut T ε :=
  match runTokens d lookup e.expr [] with
  | .ok [] => .underflow
  | .ok (r :: _) => .ok r
  | .err er => .err er
  | .underflow => .underflow
  | .varNotFound => .varNotFound
  | .panicked => .panicked

/-- An evaluator whose declared arities agree with what its `evaluate`
actually pops and pushes: given at least `operands_needed` values it never
underflows a pop, and on success the stack length changes by
`operands_generated - operands_needed`. -/
def Honest {T E ε : Type} (d : Evaluate T E ε) (ev : E) : Prop :=
  ∀ stack : List T, d.operands_needed ev ≤ stack.length →
    d.evaluate ev stack ≠ .underflow ∧
    ∀ stack', d.evaluate ev stack = .ok stack' →
      stack'.length = stack.length - d.operands_needed ev + d.operands_generated ev

/-! ## The signed-integer evaluator (`src/evaluate/integer.rs`)

The Rust code is generic over `T: PrimInt + Signed`; it is modelled over
`Int` together with the bounds `lo`/`hi` of the concrete machine type
(`lo = -2 ^ (w - 1)`, `hi = 2 ^ (w - 1) - 1`).  The zero-sized `_Phantom`
marker variant (never constructed, `unreachable!` in every match) is
dropped from the model. -/

/-- `IntEvaluator` from `src/evaluate/integer.rs`. -/
inductive IntEvaluator where
  | Add | Sub | Mul | Div | Rem | Neg | Pow | Swap | Zero | One
deriving DecidableEq

/-- `IntEvaluateErr` from `src/evaluate/integer.rs`, at the modelled
operand type (`usize` payloads become `Nat`). -/
inductive IntEvaluateErr where
  | ConvertToU32 : Int → IntEvaluateErr
  | AddOverflow : Int → Int → IntEvaluateErr
  | SubUnderflow : Int → Int → IntEvaluateErr
  | MulOverflow : Int → Int → IntEvaluateErr
  | PowOverflow : Int → Nat → IntEvaluateErr
  | InvalidDiv : Int → Int → IntEvaluateErr
  | InvalidRem : Int → Int → IntEvaluateErr
deriving DecidableEq

/-- `IntEvaluator::operands_needed`. -/
def IntEvaluator.operands_needed : IntEvaluator → Nat
  | .Add | .Sub | .Mul | .Div | .Pow | .Rem | .Swap => 2
  | .Neg => 1
  | .Zero | .One => 0

/-- `IntEvaluator::operands_generated`. -/
def IntEvaluator.operands_generated : IntEvaluator → Nat
  | .Add | .Sub | .Mul | .Div | .Rem | .Neg | .Pow | .Zero | .One => 1
  | .Swap => 2

/-- Rust `checked_add` on the machine type `[lo, hi]`. -/
def checked_add (lo hi a b : Int) : Option Int :=
  if lo ≤ a + b ∧ a + b ≤ hi then some (a + b) else none

/-- Rust `checked_sub` on the machine type `[lo, hi]`. -/
def checked_sub (lo hi a b : Int) : Option Int :=
  if lo ≤ a - b ∧ a - b ≤ hi then some (a - b) else none

/-- Rust `checked_mul` on the machine type `[lo, hi]`. -/
def checked_mul (lo hi a b : Int) : Option Int :=
  if lo ≤ a * b ∧ a * b ≤ hi then some (a * b) else none

/-- Rust `checked_div` on the machine type `[lo, hi]`: `None` on division
by zero or on the overflowing `lo / -1`; otherwise truncating division. -/
def checked_div (lo hi a b : Int) : Option Int :=
  if b = 0 ∨ (a = lo ∧ b = -1) then none else some (a.tdiv b)
-- `hi` is unused (overflow of division happens only at `lo / -1`) but kept
-- so every checked operation has the same shape.

/-- The even-exponent stripping loop at the head of `num::checked_pow`:
while the exponent is even, square the base (checked) and halve the
exponent.  The first argument is fuel; `exp + 1` always suffices, so the
fuel-exhausted `none` is unreachable. -/
def checked_pow_strip (lo hi : Int) : Nat → Int → Nat → Option (Int × Nat)
  | 0, _, _ => none
  | fuel + 1, base, exp =>
    if exp % 2 = 0 then
      match checked_mul lo hi base base with
      | none => none
      | some base2 => checked_pow_strip lo hi fuel base2 (exp / 2)
    else some (base, exp)

/-- The main accumulation loop of `num::checked_pow`: while `exp > 1`,
halve the exponent, square the base (checked), and multiply the base into
the accumulator (checked) when the new exponent is odd.  The first argument
is fuel; `exp + 1` always suffices. -/
def checked_pow_loop (lo hi : Int) : Nat → Int → Int → Nat → Option Int
  | 0, _, _, _ => none
  | fuel + 1, acc, base, exp =>
    if exp ≤ 1 then some acc
    else
      let exp2 := exp / 2
      match checked_mul lo hi base base with
      | none => none
      | some base2 =>
        if exp2 % 2 = 1 then
          match checked_mul lo hi acc base2 with
          | none => none
          | some acc2 => checked_pow_loop lo hi fuel acc2 base2 exp2
        else checked_pow_loop lo hi fuel acc base2 exp2

/-- `num::pow::checked_pow` on the machine type `[lo, hi]`: exponent 0
yields 1, otherwise strip the even part of the exponent and run the
square-and-multiply accumulation, every multiplication checked. -/
def checked_pow (lo hi base : Int) (exp : Nat) : Option Int :=
  if exp = 0 then some 1
  else
    match checked_pow_strip lo hi (exp + 1) base exp with
    | none => none
    | some (b, e) =>
      if e = 1 then some b
      else checked_pow_loop lo hi (e + 1) b b e

/-- `IntEvaluator::evaluate` from `src/evaluate/integer.rs`, one arm per
operator.  `pop_two_operands(stack).unwrap()` (and `stack.pop().unwrap()`)
on a too-small stack is the `underflow` panic.  Two operations are
unchecked in the source and therefore escape the `Result` channel:
`Neg` pushes `-a` (overflows for `a = lo`), and `Rem` computes `a % b`
after only a zero test (`lo % -1` overflows). -/
def IntEvaluator.evaluate (lo hi : Int) :
    IntEvaluator → List Int → StepOut Int IntEvaluateErr
  | .Add, stack =>
    match pop_two_operands stack with
    | none => .underflow
    | some ((a, b), rest) =>
      match checked_add lo hi a b with
      | none => .err (.AddOverflow a b)
      | some c => .ok (c :: rest)
  | .Sub, stack =>
    match pop_two_operands stack with
    | none => .underflow
    | some ((a, b), rest) =>
      match checked_sub lo hi a b with
      | none => .err (.SubUnderflow a b)
      | some c => .ok (c :: rest)
  | .Mul, stack =>
    match pop_two_operands stack with
    | none => .underflow
    | some ((a, b), rest) =>
      match checked_mul lo hi a b with
      | none => .err (.MulOverflow a b)
      | some c => .ok (c :: rest)
  | .Div, stack =>
    match pop_two_operands stack with
    | none => .underflow
    | some ((a, b), rest) =>
      match checked_div lo hi a b with
      | none => .err (.InvalidDiv a b)
      | some c => .ok (c :: rest)
  | .Rem, stack =>
    match pop_two_operands stack with
    | none => .underflow
    | some ((a, b), rest) =>
      if b = 0 then .err (.InvalidRem a b)
      else if a = lo ∧ b = -1 then .panicked
      else .ok (a.tmod b :: rest)
  | .Neg, stack =>
    match stack with
    | [] => .underflow
    | a :: rest =>
      if lo ≤ -a ∧ -a ≤ hi then .ok (-a :: rest) else .panicked
  | .Pow, stack =>
    match pop_two_operands stack with
    | none => .underflow
    | some ((a, b), rest) =>
      if b < 0 then .err (.ConvertToU32 b)
      else
        match checked_pow lo hi a b.toNat with
        | none => .err (.PowOverflow a b.toNat)
        | some p => .ok (p :: rest)
  | .Swap, stack =>
    match pop_two_operands stack with
    | none => .underflow
    | some ((a, b), rest) => .ok (a :: b :: rest)
  | .Zero, stack => .ok (0 :: stack)
  | .One, stack => .ok (1 :: stack)

/-- The `Evaluate` dictionary of `IntEvaluator` on the machine type
`[lo, hi]`. -/
def intEvaluate (lo hi : Int) : Evaluate Int IntEvaluator IntEvaluateErr where
  operands_needed := IntEvaluator.operands_needed
  operands_generated := IntEvaluator.operands_generated
  evaluate := IntEvaluator.evaluate lo hi

/-! ## Token conversions for the integer pipeline -/

/-- `IntErr` from `src/evaluate/integer.rs`: the evaluator-conversion
failure, carrying the offending token. -/
inductive IntErr where
  | InvalidExpr : String → IntErr
deriving DecidableEq

/-- `TryFromRef<&str> for IntEvaluator`: the closed operator vocabulary. -/
def IntEvaluator.try_from_ref (s : String) : Except IntErr IntEvaluator :=
  if s = "+" then .ok .Add
  else if s = "-" then .ok .Sub
  else if s = "*" then .ok .Mul
  else if s = "/" then .ok .Div
  else if s = "%" then .ok .Rem
  else if s = "neg" then .ok .Neg
  else if s = "pow" then .ok .Pow
  else if s = "swap" then .ok .Swap
  else if s = "zero" then .ok .Zero
  else if s = "one" then .ok .One
  else .error (.InvalidExpr s)

/-- `DummyVariable` from `src/variable/dummy_variable.rs`: the fake
variable type used when an expression has no variables. -/
inductive DummyVariable where
  | mk : DummyVariable
deriving DecidableEq

/-- `TryFromRef<T> for DummyVariable` always fails with `()`. -/
def DummyVariable.try_from_ref (_ : String) : Except Unit DummyVariable :=
  .error ()

/-- The error kinds of Rust's integer `FromStr` (`ParseIntError`). -/
inductive ParseIntError where
  | Empty | InvalidDigit | PosOverflow | NegOverflow
deriving DecidableEq

/-- The digit-accumulation loop of Rust's `from_str_radix` (radix 10) on
the machine type `[lo, hi]`: left to right, each digit multiplies the
accumulator by 10 and adds (positive parse) or subtracts (negative parse),
failing at the first non-digit or at the first out-of-range accumulator. -/
def parseDigits (lo hi : Int) (neg : Bool) : List Char → Int → Except ParseIntError Int
  | [], acc => .ok acc
  | c :: cs, acc =>
    if c.isDigit then
      let acc2 : Int :=
        if neg then acc * 10 - (c.toNat - '0'.toNat : Nat)
        else acc * 10 + (c.toNat - '0'.toNat : Nat)
      if acc2 < lo then .error .NegOverflow
      else if hi < acc2 then .error .PosOverflow
      else parseDigits lo hi neg cs acc2
    else .error .InvalidDigit

/-- `FromStr` for a signed machine integer with range `[lo, hi]`
(the `implement_try_from_ref!` macro in `src/convert_ref.rs` forwards
`TryFromRef<&str>` to `FromStr`): empty input fails with `Empty`, a sign
alone fails with `InvalidDigit`, otherwise the digits are accumulated. -/
def parseSignedInt (lo hi : Int) (s : String) : Except ParseIntError Int :=
  match s.data with
  | [] => .error .Empty
  | c :: cs =>
    if c = '+' then
      if cs = [] then .error .InvalidDigit else parseDigits lo hi false cs 0
    else if c = '-' then
      if cs = [] then .error .InvalidDigit else parseDigits lo hi true cs 0
    else parseDigits lo hi false (c :: cs) 0

/-- The bounds of `i32`. -/
def i32min : Int := -2147483648

/-- The upper bound of `i32`. -/
def i32max : Int := 2147483647

/-- The bounds of `i8`. -/
def i8min : Int := -128

/-- The upper bound of `i8`. -/
def i8max : Int := 127

/-- `IntExpr::from_iter` (`IntExpr<T> = Expression<T, DummyVariable,
IntEvaluator<T>>` in `src/evaluate/mod.rs`) on string tokens, for the
machine type `[lo, hi]`. -/
def intFromIter (lo hi : Int) (toks : List String) :
    Except (ExprResult IntErr Unit ParseIntError)
      (Expression Int DummyVariable IntEvaluator) :=
  from_iter (intEvaluate lo hi) IntEvaluator.try_from_ref DummyVariable.try_from_ref
    (parseSignedInt lo hi) toks

/-- `IntExpr::evaluate`: evaluation with the `DummyVariables` container.
Since `DummyVariable::try_from_ref` always fails, a constructed `IntExpr`
never contains a variable token and the lookup is never consulted; the
container's `index` (which would panic) is modelled as `none`. -/
def intEvalExpr (lo hi : Int) (e : Expression Int DummyVariable IntEvaluator) :
    EvalOut Int IntEvaluateErr :=
  evaluate_with_variables (intEvaluate lo hi) (fun _ => none) e

/-- Parse-then-evaluate helper for integer string tokens: `none` when
construction fails, otherwise the evaluation outcome. -/
def evalIntTokens (lo hi : Int) (toks : List String) :
    Option (EvalOut Int IntEvaluateErr) :=
  (intFromIter lo hi toks).toOption.map (intEvalExpr lo hi)

/-! ## The float evaluator (`src/evaluate/float.rs`)

IEEE binary floating-point values are modelled as an inductive type with a
rational payload for finite values plus the special values `inf`, `-inf`
and `NaN`.  Arithmetic on finite payloads is exact rational arithmetic:
this agrees with `f32`/`f64` exactly whenever no rounding occurs, which is
the case for every floating-point computation exercised by the
specification's examples (small integers).  Rounding, signed zero and the
transcendental operators (`sqrt`, `pow`, `log2`, `exp`, `round`), which
need real-valued semantics outside this rational model, are not modelled;
the embedded operator vocabulary is the arithmetic fragment of
`FloatEvaluator` (`+ - * / % neg swap zero one`). -/

/-- Idealized IEEE floating-point value. -/
inductive FVal where
  | fin : ℚ → FVal
  | inf : FVal
  | neginf : FVal
  | nan : FVal
deriving DecidableEq

/-- IEEE negation. -/
def fneg : FVal → FVal
  | .fin a => .fin (-a)
  | .inf => .neginf
  | .neginf => .inf
  | .nan => .nan

/-- IEEE addition (exact on finite payloads). -/
def fadd : FVal → FVal → FVal
  | .nan, _ => .nan
  | _, .nan => .nan
  | .fin a, .fin b => .fin (a + b)
  | .inf, .neginf => .nan
  | .neginf, .inf => .nan
  | .inf, _ => .inf
  | .neginf, _ => .neginf
  | _, .inf => .inf
  | _, .neginf => .neginf

/-- IEEE subtraction: `a - b = a + (-b)` holds exactly in IEEE. -/
def fsub (a b : FVal) : FVal := fadd a (fneg b)

/-- IEEE multiplication (exact on finite payloads); `0 * inf = NaN`. -/
def fmul : FVal → FVal → FVal
  | .nan, _ => .nan
  | _, .nan => .nan
  | .fin a, .fin b => .fin (a * b)
  | .fin a, .inf => if a = 0 then .nan else if 0 < a then .inf else .neginf
  | .fin a, .neginf => if a = 0 then .nan else if 0 < a then .neginf else .inf
  | .inf, .fin b => if b = 0 then .nan else if 0 < b then .inf else .neginf
  | .neginf, .fin b => if b = 0 then .nan else if 0 < b then .neginf else .inf
  | .inf, .inf => .inf
  | .inf, .neginf => .neginf
  | .neginf, .inf => .neginf
  | .neginf, .neginf => .inf

/-- IEEE division (exact on finite payloads): a nonzero finite value
divided by zero gives a signed infinity, `0 / 0` gives `NaN`.  (Signed
zero is not modelled, so the negative-zero divisor cases are absent.) -/
def fdiv : FVal → FVal → FVal
  | .nan, _ => .nan
  | _, .nan => .nan
  | .fin a, .fin b =>
    if b = 0 then (if a = 0 then .nan else if 0 < a then .inf else .neginf)
    else .fin (a / b)
  | .fin _, .inf => .fin 0
  | .fin _, .neginf => .fin 0
  | .inf, .fin b => if 0 ≤ b then .inf else .neginf
  | .neginf, .fin b => if 0 ≤ b then .neginf else .inf
  | .inf, _ => .nan
  | .neginf, _ => .nan

/-- Truncation of a rational toward zero (the `trunc` used by the IEEE
remainder). -/
def qtrunc (q : ℚ) : Int := if 0 ≤ q then ⌊q⌋ else ⌈q⌉

/-- IEEE remainder as computed by Rust's `%` on floats:
`a - b * trunc(a / b)`, `NaN` for a zero divisor or an infinite dividend,
`a` for a finite `a` and infinite divisor. -/
def frem : FVal → FVal → FVal
  | .nan, _ => .nan
  | _, .nan => .nan
  | .fin a, .fin b =>
    if b = 0 then .nan else .fin (a - b * (qtrunc (a / b) : ℚ))
  | .fin a, .inf => .fin a
  | .fin a, .neginf => .fin a
  | .inf, _ => .nan
  | .neginf, _ => .nan

/-- The arithmetic fragment of `FloatEvaluator` from
`src/evaluate/float.rs` (see the section comment). -/
inductive FloatEvaluator where
  | Add | Sub | Mul | Div | Rem | Neg | Swap | Zero | One
deriving DecidableEq

/-- `FloatEvaluator::operands_needed`. -/
def FloatEvaluator.operands_needed : FloatEvaluator → Nat
  | .Add | .Sub | .Mul | .Div | .Rem | .Swap => 2
  | .Neg => 1
  | .Zero | .One => 0

/-- `FloatEvaluator::operands_generated`. -/
def FloatEvaluator.operands_generated : FloatEvaluator → Nat
  | .Add | .Sub | .Mul | .Div | .Rem | .Neg | .Zero | .One => 1
  | .Swap => 2

/-- `FloatEvaluateErr` from `src/evaluate/float.rs` is an empty enum (a
float evaluation never returns an error), modelled as `Empty`. -/
def FloatEvaluateErr : Type := Empty

instance : DecidableEq FloatEvaluateErr := fun a _ => a.elim

/-- `FloatEvaluator::evaluate` from `src/evaluate/float.rs` (arithmetic
fragment): every arm pops its operands and pushes the IEEE result; no arm
can fail. -/
def FloatEvaluator.evaluate : FloatEvaluator → List FVal → StepOut FVal FloatEvaluateErr
  | .Add, stack =>
    match pop_two_operands stack with
    | none => .underflow
    | some ((a, b), rest) => .ok (fadd a b :: rest)
  | .Sub, stack =>
    match pop_two_operands stack with
    | none => .underflow
    | some ((a, b), rest) => .ok (fsub a b :: rest)
  | .Mul, stack =>
    match pop_two_operands stack with
    | none => .underflow
    | some ((a, b), rest) => .ok (fmul a b :: rest)
  | .Div, stack =>
    match pop_two_operands stack with
    | none => .underflow
    | some ((a, b), rest) => .ok (fdiv a b :: rest)
  | .Rem, stack =>
    match pop_two_operands stack with
    | none => .underflow
    | some ((a, b), rest) => .ok (frem a b :: rest)
  | .Neg, stack =>
    match stack with
    | [] => .underflow
    | a :: rest => .ok (fneg a :: rest)
  | .Swap, stack =>
    match pop_two_operands stack with
    | none => .underflow
    | some ((a, b), rest) => .ok (a :: b :: rest)
  | .Zero, stack => .ok (.fin 0 :: stack)
  | .One, stack => .ok (.fin 1 :: stack)

/-- The `Evaluate` dictionary of `FloatEvaluator`. -/
def floatEvaluate : Evaluate FVal FloatEvaluator FloatEvaluateErr where
  operands_needed := FloatEvaluator.operands_needed
  operands_generated := FloatEvaluator.operands_generated
  evaluate := FloatEvaluator.evaluate

/-- `FloatErr` from `src/evaluate/float.rs`. -/
inductive FloatErr where
  | InvalidExpr : String → FloatErr
deriving DecidableEq

/-- `TryFromRef<&str> for FloatEvaluator` (arithmetic fragment of the
operator table). -/
def FloatEvaluator.try_from_ref (s : String) : Except FloatErr FloatEvaluator :=
  if s = "+" then .ok .Add
  else if s = "-" then .ok .Sub
  else if s = "*" then .ok .Mul
  else if s = "/" then .ok .Div
  else if s = "%" then .ok .Rem
  else if s = "neg" then .ok .Neg
  else if s = "swap" then .ok .Swap
  else if s = "zero" then .ok .Zero
  else if s = "one" then .ok .One
  else .error (.InvalidExpr s)

/-- Rust's opaque `ParseFloatError`. -/
inductive ParseFloatError where
  | Invalid : ParseFloatError
deriving DecidableEq

/-- Accumulate a run of decimal digits; `none` at the first non-digit. -/
def decDigitsVal : List Char → Nat → Option Nat
  | [], acc => some acc
  | c :: cs, acc =>
    if c.isDigit then decDigitsVal cs (acc * 10 + (c.toNat - '0'.toNat))
    else none

/-- Split a character list at the first dot. -/
def splitAtDot : List Char → List Char × Option (List Char)
  | [] => ([], none)
  | c :: rest =>
    if c = '.' then ([], some rest)
    else
      let p := splitAtDot rest
      (c :: p.1, p.2)

/-- `FromStr` for a float, on decimal literals
(`[sign] digits [. digits]`, at least one digit): the exact rational value
of the literal.  Every such small literal is exactly representable, so no
rounding step is needed; the `inf`/`NaN`/exponent literal forms accepted
by Rust are outside the model. -/
def parseFVal (s : String) : Except ParseFloatError FVal :=
  match s.data with
  | [] => .error .Invalid
  | c :: cs =>
    let signNeg : Bool := c = '-'
    let body := if c = '-' ∨ c = '+' then cs else c :: cs
    match splitAtDot body with
    | (ip, none) =>
      if ip = [] then .error .Invalid
      else
        match decDigitsVal ip 0 with
        | none => .error .Invalid
        | some n => .ok (.fin (if signNeg then -(n : ℚ) else (n : ℚ)))
    | (ip, some fp) =>
      if ip = [] ∧ fp = [] then .error .Invalid
      else
        match decDigitsVal ip 0, decDigitsVal fp 0 with
        | some n, some f =>
          let q : ℚ := (n : ℚ) + (f : ℚ) / ((10 : ℚ) ^ fp.length)
          .ok (.fin (if signNeg then -q else q))
        | _, _ => .error .Invalid

/-- `FloatExpr::from_iter` (`FloatExpr<T> = Expression<T, DummyVariable,
FloatEvaluator<T>>`) on string tokens. -/
def floatFromIter (toks : List String) :
    Except (ExprResult FloatErr Unit ParseFloatError)
      (Expression FVal DummyVariable FloatEvaluator) :=
  from_iter floatEvaluate FloatEvaluator.try_from_ref DummyVariable.try_from_ref
    parseFVal toks

/-- Parse-then-evaluate helper for float string tokens. -/
def evalFloatTokens (toks : List String) :
    Option (EvalOut FVal FloatEvaluateErr) :=
  (floatFromIter toks).toOption.map
    (evaluate_with_variables floatEvaluate (fun _ => none))

/-! ## Variables (`src/variable/{index_var,get_variable}.rs`) -/

/-- `IndexVar` from `src/variable/index_var.rs`: an index into a variable
container. -/
inductive IndexVar where
  | mk : Nat → IndexVar
deriving DecidableEq

/-- `VarIdxErr` from `src/variable/index_var.rs`. -/
inductive VarIdxErr where
  | InvalidVariableName : String → VarIdxErr
  | ConvertErr : ParseIntError → VarIdxErr
deriving DecidableEq

/-- The largest `usize` value (64-bit). -/
def usizeMax : Int := 18446744073709551615

/-- `FromStr` for `usize`: like the signed parse but a `-` sign is just an
invalid digit. -/
def parseUsize (s : String) : Except ParseIntError Nat :=
  match s.data with
  | [] => .error .Empty
  | c :: cs =>
    if c = '+' then
      if cs = [] then .error .InvalidDigit
      else (parseDigits 0 usizeMax false cs 0).map Int.toNat
    else (parseDigits 0 usizeMax false (c :: cs) 0).map Int.toNat

/-- `TryFromRef<&str> for IndexVar`: a leading `$` sigil followed by a
`usize` index. -/
def IndexVar.try_from_ref (s : String) : Except VarIdxErr IndexVar :=
  match s.data with
  | '$' :: rest =>
    match parseUsize (String.mk rest) with
    | .ok n => .ok (.mk n)
    | .error e => .error (.ConvertErr e)
  | _ => .error (.InvalidVariableName s)

/-- `GetVariable<usize> for Vec<T>` from `src/variable/get_variable.rs`
(`self.iter().nth(index)`), composed with `Into<usize> for IndexVar`. -/
def vecLookup {T : Type} (vars : List T) : IndexVar → Option T
  | .mk n => vars.get? n

/-- `VariableIntExpr::from_iter` (`Expression<T, IndexVar,
IntEvaluator<T>>`) on string tokens. -/
def varIntFromIter (lo hi : Int) (toks : List String) :
    Except (ExprResult IntErr VarIdxErr ParseIntError)
      (Expression Int IndexVar IntEvaluator) :=
  from_iter (intEvaluate lo hi) IntEvaluator.try_from_ref IndexVar.try_from_ref
    (parseSignedInt lo hi) toks

/-- Parse-then-evaluate helper for integer expressions with `$n` variables
resolved from a `Vec` container. -/
def evalVarIntTokens (lo hi : Int) (vars : List Int) (toks : List String) :
    Option (EvalOut Int IntEvaluateErr) :=
  (varIntFromIter lo hi toks).toOption.map
    (evaluate_with_variables (intEvaluate lo hi) (vecLookup vars))

/-! ## Rendering (`impl fmt::Display for Expression`, `src/expression.rs`) -/

/-- `fmt::Display for IntEvaluator`: the canonical operator text. -/
def IntEvaluator.display : IntEvaluator → String
  | .Add => "+"
  | .Sub => "-"
  | .Mul => "*"
  | .Div => "/"
  | .Rem => "%"
  | .Neg => "neg"
  | .Pow => "pow"
  | .Swap => "swap"
  | .Zero => "zero"
  | .One => "one"

/-- `fmt::Display` for the integer operand type: decimal text with a
leading minus for negatives (Lean's `toString` on `Int` agrees with Rust's
`Display` for machine integers). -/
def intDisplay (n : Int) : String := toString n

/-- Rendering of one token of an integer expression.  `fmt::Display for
DummyVariable` returns `Err(fmt::Error)`, modelled as `none`. -/
def renderArithmInt : Arithm Int DummyVariable IntEvaluator → Option String
  | .Operand n => some (intDisplay n)
  | .Variable _ => none
  | .Evaluator ev => some ev.display

/-- The token loop of `fmt::Display for Expression`: render each token in
order, the `?` operator propagating the first formatting failure. -/
def renderTokens : List (Arithm Int DummyVariable IntEvaluator) → Option (List String)
  | [] => some []
  | a :: rest =>
    match renderArithmInt a, renderTokens rest with
    | some s, some ss => some (s :: ss)
    | _, _ => none

/-- `fmt::Display for Expression` on integer expressions: each token's
canonical text in order, consecutive tokens separated by a single space
(the source writes `" "` after every token except the last). -/
def renderExprInt (e : Expression Int DummyVariable IntEvaluator) : Option String :=
  (renderTokens e.expr).map (String.intercalate " ")

/-- Parse then render, for integer string tokens at `i32`. -/
def renderParseInt (toks : List String) : Option String :=
  (intFromIter i32min i32max toks).toOption.bind renderExprInt

/-- A token of the integer pipeline is canonical when the text it renders
back to is the token itself (tokens that fail classification are vacuously
canonical). -/
def canonicalTok (tok : String) : Prop :=
  match classify IntEvaluator.try_from_ref DummyVariable.try_from_ref
      (parseSignedInt i32min i32max) tok with
  | .ok a => renderArithmInt a = some tok
  | .error _ => True

instance canonicalTok.decidable : DecidablePred canonicalTok := by
  intro tok
  unfold canonicalTok
  cases classify IntEvaluator.try_from_ref DummyVariable.try_from_ref
      (parseSignedInt i32min i32max) tok with
  | error e => exact .isTrue trivial
  | ok a => exact inferInstanceAs (Decidable (renderArithmInt a = some tok))

/-! ## Specification-side descriptions of the balance simulation

These definitions restate the spec's description of the arity scan
("balance counter initialized to 0, scanned left to right") in a direct
form — a total balance-update function, a Bool recording that no checked
subtraction underflowed, the final balance, and the list of running
balances — so the source algorithms can be proved equal to them. -/

/-- The spec's balance update for one token: operands and variables add 1,
an evaluator subtracts `operands_needed` and adds `operands_generated`. -/
def balStep {T V E ε : Type} (d : Evaluate T E ε) : Arithm T V E → Nat → Nat
  | .Operand _, b => b + 1
  | .Variable _, b => b + 1
  | .Evaluator ev, b => b - d.operands_needed ev + d.operands_generated ev

/-- Whether the left-to-right balance scan never underflows a checked
subtraction. -/
def scanOk {T V E ε : Type} (d : Evaluate T E ε) : List (Arithm T V E) → Nat → Bool
  | [], _ => true
  | .Operand _ :: rest, b => scanOk d rest (b + 1)
  | .Variable _ :: rest, b => scanOk d rest (b + 1)
  | .Evaluator ev :: rest, b =>
    decide (d.operands_needed ev ≤ b) &&
      scanOk d rest (b - d.operands_needed ev + d.operands_generated ev)

/-- The balance after the whole scan (with truncated subtraction; it agrees
with the checked scan whenever `scanOk` holds). -/
def finalBalance {T V E ε : Type} (d : Evaluate T E ε) :
    List (Arithm T V E) → Nat → Nat
  | [], b => b
  | a :: rest, b => finalBalance d rest (balStep d a b)

/-- The list of running balances reached after each token of the scan. -/
def specBalances {T V E ε : Type} (d : Evaluate T E ε) :
    List (Arithm T V E) → Nat → List Nat
  | [], _ => []
  | a :: rest, b => balStep d a b :: specBalances d rest (balStep d a b)

/-- The spec's stack-depth planner: the maximum value the running balance
reaches, starting from 0. -/
def maxStackSpec {T V E ε : Type} (d : Evaluate T E ε)
    (l : List (Arithm T V E)) : Nat :=
  (specBalances d l 0).foldl max 0

/-- The checked balance scan is the total scan guarded by `scanOk`. -/
theorem validityBalance_eq_scan {T V E ε : Type} (d : Evaluate T E ε) :
    ∀ (l : List (Arithm T V E)) (b : Nat),
      validityBalance d l b =
        if scanOk d l b then .ok (finalBalance d l b) else .error .NotEnoughOperand
  | [], b => by simp [validityBalance, scanOk, finalBalance]
  | .Operand _ :: rest, b => by
    simpa [validityBalance, scanOk, finalBalance, balStep] using
      validityBalance_eq_scan d rest (b + 1)
  | .Variable _ :: rest, b => by
    simpa [validityBalance, scanOk, finalBalance, balStep] using
      validityBalance_eq_scan d rest (b + 1)
  | .Evaluator ev :: rest, b => by
    by_cases hn : d.operands_needed ev ≤ b
    · simpa [validityBalance, scanOk, finalBalance, balStep, hn] using
        validityBalance_eq_scan d rest (b - d.operands_needed ev + d.operands_generated ev)
    · simp [validityBalance, scanOk, finalBalance, balStep, hn]

/-- `check_validity` succeeds exactly when the scan never underflows and
ends at balance 1. -/
theorem check_validity_ok_iff {T V E ε : Type} (d : Evaluate T E ε)
    (l : List (Arithm T V E)) :
    check_validity d l = .ok () ↔ scanOk d l 0 = true ∧ finalBalance d l 0 = 1 := by
  rw [check_validity, validityBalance_eq_scan]
  by_cases hs : scanOk d l 0
  · rcases hfb : finalBalance d l 0 with _ | _ | k <;> simp [hs, hfb]
  · simp [hs]

/-- `check_validity` fails with `NotEnoughOperand` exactly when some
checked subtraction underflows or the scan ends at balance 0. -/
theorem check_validity_notEnough_iff {T V E ε : Type} (d : Evaluate T E ε)
    (l : List (Arithm T V E)) :
    check_validity d l = .error .NotEnoughOperand ↔
      scanOk d l 0 = false ∨ (scanOk d l 0 = true ∧ finalBalance d l 0 = 0) := by
  rw [check_validity, validityBalance_eq_scan]
  by_cases hs : scanOk d l 0
  · rcases hfb : finalBalance d l 0 with _ | _ | k <;> simp [hs, hfb]
  · simp [hs]

/-- `check_validity` fails with `TooManyOperands` exactly when the scan
never underflows but ends at balance 2 or more. -/
theorem check_validity_tooMany_iff {T V E ε : Type} (d : Evaluate T E ε)
    (l : List (Arithm T V E)) :
    check_validity d l = .error .TooManyOperands ↔
      scanOk d l 0 = true ∧ 2 ≤ finalBalance d l 0 := by
  rw [check_validity, validityBalance_eq_scan]
  by_cases hs : scanOk d l 0
  · rcases hfb : finalBalance d l 0 with _ | _ | k <;> simp [hs, hfb]
  · simp [hs]

/-! ## Stack-shape lemmas -/

/-- A list of length at least two starts with two elements. -/
theorem exists_two_of_le_length {T : Type} :
    ∀ {s : List T}, 2 ≤ s.length → ∃ a b rest, s = a :: b :: rest
  | a :: b :: rest, _ => ⟨a, b, rest, rfl⟩

/-- `pop_two_operands` on a stack with two top elements: the pair is
`(earlier, later)` and the rest of the stack is returned unchanged. -/
theorem pop_two_operands_cons {T : Type} (later earlier : T) (rest : List T) :
    pop_two_operands (later :: earlier :: rest) = some ((earlier, later), rest) := by
  unfold pop_two_operands
  rw [if_pos (by simp)]

/-- The integer evaluator is honest: each operator pops exactly
`operands_needed` values (never underflowing when enough are present) and
pushes exactly `operands_generated` results on success. -/
theorem intEvaluate_Honest (lo hi : Int) (ev : IntEvaluator) :
    Honest (intEvaluate lo hi) ev := by
  intro stack hlen
  cases ev
  case Add =>
    obtain ⟨a, b, rest, rfl⟩ := exists_two_of_le_length hlen
    constructor
    · cases h : checked_add lo hi b a <;>
        simp [intEvaluate, IntEvaluator.evaluate, pop_two_operands_cons, h]
    · intro stack' hs
      cases h : checked_add lo hi b a <;>
        simp [intEvaluate, IntEvaluator.evaluate, pop_two_operands_cons, h] at hs
      subst hs
      simp [intEvaluate, IntEvaluator.operands_needed, IntEvaluator.operands_generated]
  case Sub =>
    obtain ⟨a, b, rest, rfl⟩ := exists_two_of_le_length hlen
    constructor
    · cases h : checked_sub lo hi b a <;>
        simp [intEvaluate, IntEvaluator.evaluate, pop_two_operands_cons, h]
    · intro stack' hs
      cases h : checked_sub lo hi b a <;>
        simp [intEvaluate, IntEvaluator.evaluate, pop_two_operands_cons, h] at hs
      subst hs
      simp [intEvaluate, IntEvaluator.operands_needed, IntEvaluator.operands_generated]
  case Mul =>
    obtain ⟨a, b, rest, rfl⟩ := exists_two_of_le_length hlen
    constructor
    · cases h : checked_mul lo hi b a <;>
        simp [intEvaluate, IntEvaluator.evaluate, pop_two_operands_cons, h]
    · intro stack' hs
      cases h : checked_mul lo hi b a <;>
        simp [intEvaluate, IntEvaluator.evaluate, pop_two_operands_cons, h] at hs
      subst hs
      simp [intEvaluate, IntEvaluator.operands_needed, IntEvaluator.operands_generated]
  case Div =>
    obtain ⟨a, b, rest, rfl⟩ := exists_two_of_le_length hlen
    constructor
    · cases h : checked_div lo hi b a <;>
        simp [intEvaluate, IntEvaluator.evaluate, pop_two_operands_cons, h]
    · intro stack' hs
      cases h : checked_div lo hi b a <;>
        simp [intEvaluate, IntEvaluator.evaluate, pop_two_operands_cons, h] at hs
      subst hs
      simp [intEvaluate, IntEvaluator.operands_needed, IntEvaluator.operands_generated]
  case Rem =>
    obtain ⟨a, b, rest, rfl⟩ := exists_two_of_le_length hlen
    constructor
    · simp only [intEvaluate, IntEvaluator.evaluate, pop_two_operands_cons]
      split
      · simp
      · split <;> simp
    · intro stack' hs
      simp only [intEvaluate, IntEvaluator.evaluate, pop_two_operands_cons] at hs
      split at hs
      · simp_all
      · split at hs
        · simp_all
        · simp only [StepOut.ok.injEq] at hs
          subst hs
          simp [intEvaluate, IntEvaluator.operands_needed, IntEvaluator.operands_generated]
  case Neg =>
    match stack, hlen with
    | a :: rest, _ =>
      constructor
      · simp only [intEvaluate, IntEvaluator.evaluate]
        split <;> simp
      · intro stack' hs
        simp only [intEvaluate, IntEvaluator.evaluate] at hs
        split at hs <;> simp_all
        subst hs
        simp [intEvaluate, IntEvaluator.operands_needed, IntEvaluator.operands_generated]
  case Pow =>
    obtain ⟨a, b, rest, rfl⟩ := exists_two_of_le_length hlen
    constructor
    · simp only [intEvaluate, IntEvaluator.evaluate, pop_two_operands_cons]
      split
      · simp
      · cases h : checked_pow lo hi b a.toNat <;> simp [h]
    · intro stack' hs
      simp only [intEvaluate, IntEvaluator.evaluate, pop_two_operands_cons] at hs
      split at hs
      · simp_all
      · cases h : checked_pow lo hi b a.toNat <;> simp [h] at hs
        subst hs
        simp [intEvaluate, IntEvaluator.operands_needed, IntEvaluator.operands_generated]
  case Swap =>
    obtain ⟨a, b, rest, rfl⟩ := exists_two_of_le_length hlen
    refine ⟨by simp [intEvaluate, IntEvaluator.evaluate, pop_two_operands_cons], ?_⟩
    intro stack' hs
    simp [intEvaluate, IntEvaluator.evaluate, pop_two_operands_cons] at hs
    subst hs
    simp [intEvaluate, IntEvaluator.operands_needed, IntEvaluator.operands_generated]
  case Zero =>
    refine ⟨by simp [intEvaluate, IntEvaluator.evaluate], ?_⟩
    intro stack' hs
    simp [intEvaluate, IntEvaluator.evaluate] at hs
    subst hs
    simp [intEvaluate, IntEvaluator.operands_needed, IntEvaluator.operands_generated]
  case One =>
    refine ⟨by simp [intEvaluate, IntEvaluator.evaluate], ?_⟩
    intro stack' hs
    simp [intEvaluate, IntEvaluator.evaluate] at hs
    subst hs
    simp [intEvaluate, IntEvaluator.operands_needed, IntEvaluator.operands_generated]

/-- Replaying tokens whose balance scan succeeds from a stack of matching
length with honest evaluators never underflows a pop, and on success the
final stack length is the final balance. -/
theorem runTokens_no_underflow {T V E ε : Type} (d : Evaluate T E ε)
    (lookup : V → Option T) :
    ∀ (l : List (Arithm T V E)) (stack : List T) (m : Nat),
      validityBalance d l stack.length = .ok m →
      (∀ ev, Arithm.Evaluator ev ∈ l → Honest d ev) →
      runTokens d lookup l stack ≠ .underflow ∧
        ∀ s, runTokens d lookup l stack = .ok s → s.length = m
  | [], stack, m, hv, _ => by
    simp only [validityBalance, Except.ok.injEq] at hv
    refine ⟨by simp [runTokens], ?_⟩
    intro s hs
    simp only [runTokens, RunOut.ok.injEq] at hs
    rw [← hs, hv]
  | .Operand t :: rest, stack, m, hv, hh => by
    simp only [validityBalance] at hv
    have ih := runTokens_no_underflow d lookup rest (t :: stack) m
      (by simpa using hv) (fun ev h => hh ev (List.mem_cons_of_mem _ h))
    simpa [runTokens] using ih
  | .Variable v :: rest, stack, m, hv, hh => by
    simp only [validityBalance] at hv
    cases hl : lookup v with
    | none => simp [runTokens, hl]
    | some t =>
      have ih := runTokens_no_underflow d lookup rest (t :: stack) m
        (by simpa using hv) (fun ev h => hh ev (List.mem_cons_of_mem _ h))
      simpa [runTokens, hl] using ih
  | .Evaluator ev :: rest, stack, m, hv, hh => by
    have hev : Honest d ev := hh ev (List.mem_cons_self _ _)
    by_cases hn : d.operands_needed ev ≤ stack.length
    · simp only [validityBalance, if_pos hn] at hv
      obtain ⟨hnu, hok⟩ := hev stack hn
      cases hstep : d.evaluate ev stack with
      | ok stack' =>
        have hlen := hok stack' hstep
        have ih := runTokens_no_underflow d lookup rest stack' m
          (by rw [hlen]; exact hv) (fun e h => hh e (List.mem_cons_of_mem _ h))
        simpa [runTokens, hstep] using ih
      | err e => simp [runTokens, hstep]
      | underflow => exact absurd hstep hnu
      | panicked => simp [runTokens, hstep]
    · simp [validityBalance, if_neg hn] at hv

/-- Replaying an appended token sequence runs the first part and, if it
succeeds, continues with the second from the resulting stack. -/
theorem runTokens_append {T V E ε : Type} (d : Evaluate T E ε)
    (lookup : V → Option T) :
    ∀ (l1 l2 : List (Arithm T V E)) (stack : List T),
      runTokens d lookup (l1 ++ l2) stack =
        match runTokens d lookup l1 stack with
        | .ok s => runTokens d lookup l2 s
        | .err e => .err e
        | .underflow => .underflow
        | .varNotFound => .varNotFound
        | .panicked => .panicked
  | [], l2, stack => by simp [runTokens]
  | .Operand t :: rest, l2, stack => by
    simpa [runTokens] using runTokens_append d lookup rest l2 (t :: stack)
  | .Variable v :: rest, l2, stack => by
    cases hl : lookup v with
    | none => simp [runTokens, hl]
    | some t =>
      simpa [runTokens, hl] using runTokens_append d lookup rest l2 (t :: stack)
  | .Evaluator ev :: rest, l2, stack => by
    cases hstep : d.evaluate ev stack with
    | ok stack' =>
      simpa [runTokens, hstep] using runTokens_append d lookup rest l2 stack'
    | err e => simp [runTokens, hstep]
    | underflow => simp [runTokens, hstep]
    | panicked => simp [runTokens, hstep]

/-- The `as usize` cast is the identity on natural values below `2 ^ 64`. -/
theorem intAsUsize_coe (n : Nat) (h : n < 2 ^ 64) : intAsUsize (n : Int) = n := by
  unfold intAsUsize
  rw [Int.emod_eq_of_lt (by positivity) (by exact_mod_cast h)]
  simp

/-- The fold of `compute_stack_max`, started at accumulator `b` and running
maximum `m`, computes the maximum of `m` and the running balances of the
scan — provided the scan never underflows and all balances stay below
`2 ^ 63` (so that no `as usize` cast wraps). -/
theorem compute_stack_max_loop {T V E ε : Type} (d : Evaluate T E ε) :
    ∀ (l : List (Arithm T V E)) (b m : Nat),
      scanOk d l b = true →
      (∀ x ∈ specBalances d l b, x < 2 ^ 63) →
      ((l.map (arithmCount d)).foldl stackMaxStep (m, (b : Int))).1 =
        (specBalances d l b).foldl max m
  | [], b, m, _, _ => by simp [specBalances]
  | a :: rest, b, m, hscan, hbound => by
    have hb2 : balStep d a b < 2 ^ 63 :=
      hbound _ (by simp [specBalances])
    have hcount : (b : Int) + arithmCount d a = (balStep d a b : Int) := by
      cases a with
      | Operand t => simp [arithmCount, balStep]
      | Variable v => simp [arithmCount, balStep]
      | Evaluator ev =>
        have hn : d.operands_needed ev ≤ b := by
          simp only [scanOk, Bool.and_eq_true, decide_eq_true_eq] at hscan
          exact hscan.1
        simp only [arithmCount, balStep]
        omega
    have hstep : stackMaxStep (m, (b : Int)) (arithmCount d a) =
        (max m (balStep d a b), (balStep d a b : Int)) := by
      unfold stackMaxStep
      rw [hcount, intAsUsize_coe _ (by omega)]
      rcases Nat.lt_or_ge m (balStep d a b) with hgt | hge
      · simp [hgt, Nat.max_eq_right (Nat.le_of_lt hgt)]
      · simp [Nat.not_lt.mpr hge, Nat.max_eq_left hge]
    have hscan2 : scanOk d rest (balStep d a b) = true := by
      cases a with
      | Operand t => simpa [scanOk, balStep] using hscan
      | Variable v => simpa [scanOk, balStep] using hscan
      | Evaluator ev =>
        simp only [scanOk, Bool.and_eq_true, decide_eq_true_eq] at hscan
        simpa [balStep] using hscan.2
    have ih := compute_stack_max_loop d rest (balStep d a b) (max m (balStep d a b))
      hscan2 (fun x hx => hbound x (by simp [specBalances, hx]))
    simp only [List.map_cons, List.foldl_cons, hstep, specBalances]
    exact ih

/-- A successful `from_iter` classified every token, validated the result,
and stored the planner's `max_stack`. -/
theorem from_iter_ok {A T V E ε e1 e2 e3 : Type} (d : Evaluate T E ε)
    (econv : A → Except e1 E) (vconv : A → Except e2 V) (oconv : A → Except e3 T)
    (toks : List A) (ex : Expression T V E)
    (h : from_iter d econv vconv oconv toks = .ok ex) :
    classifyAll econv vconv oconv toks = .ok ex.expr ∧
      check_validity d ex.expr = .ok () ∧
      ex.max_stack = compute_stack_max d ex.expr := by
  unfold from_iter at h
  cases hc : classifyAll econv vconv oconv toks with
  | error e => rw [hc] at h; cases h
  | ok l =>
    rw [hc] at h
    dsimp only at h
    cases hv : check_validity d l with
    | error e => rw [hv] at h; simp at h
    | ok u =>
      rw [hv] at h
      simp only [Except.ok.injEq] at h
      subst h
      exact ⟨rfl, by cases u; exact hv, rfl⟩

/-- Successful classification of a token list relates tokens and classified
tokens pointwise. -/
theorem classifyAll_forall2 {A T V E e1 e2 e3 : Type}
    (econv : A → Except e1 E) (vconv : A → Except e2 V) (oconv : A → Except e3 T) :
    ∀ (toks : List A) (l : List (Arithm T V E)),
      classifyAll econv vconv oconv toks = .ok l →
      List.Forall₂ (fun tok a => classify econv vconv oconv tok = .ok a) toks l
  | [], l, h => by
    simp only [classifyAll, Except.ok.injEq] at h
    rw [← h]
    exact List.Forall₂.nil
  | tok :: toks, l, h => by
    unfold classifyAll at h
    cases hc : classify econv vconv oconv tok with
    | error e => rw [hc] at h; cases h
    | ok a =>
      rw [hc] at h
      cases hrest : classifyAll econv vconv oconv toks with
      | error e => rw [hrest] at h; cases h
      | ok rest =>
        rw [hrest] at h
        simp only [Except.ok.injEq] at h
        rw [← h]
        exact List.Forall₂.cons hc (classifyAll_forall2 econv vconv oconv toks rest hrest)

/-- Rendering the classified form of a list of canonical tokens recovers
exactly those tokens. -/
theorem render_of_canonical :
    ∀ (toks : List String) (l : List (Arithm Int DummyVariable IntEvaluator)),
      List.Forall₂
        (fun tok a =>
          classify IntEvaluator.try_from_ref DummyVariable.try_from_ref
            (parseSignedInt i32min i32max) tok = .ok a) toks l →
      (∀ tok ∈ toks, canonicalTok tok) →
      renderTokens l = some toks := by
  intro toks l hf
  induction hf with
  | nil => intro _; rfl
  | cons hc _ ih =>
    intro hcanon
    rename_i tok a toks' l' _
    have h1 : renderArithmInt a = some tok := by
      have := hcanon tok (List.mem_cons_self _ _)
      unfold canonicalTok at this
      rw [hc] at this
      exact this
    have h2 := ih (fun t ht => hcanon t (List.mem_cons_of_mem _ ht))
    simp [renderTokens, h1, h2]

/-! ## Claim theorems -/

/-- Claim C1: arity validation is the left-to-right balance scan from 0 —
operands and variables add 1, an evaluator checked-subtracts its
`operands_needed` (failing immediately with `NotEnoughOperand` on
underflow) then adds its `operands_generated`; the scan succeeds iff the
final balance is exactly 1, yields `NotEnoughOperand` at 0 and
`TooManyOperands` above 1.  In particular the tokens of `4 +` fail
construction with `NotEnoughOperand` and those of `3 3 4 +` with
`TooManyOperands`. -/
theorem claim_C1 :
    (∀ (T V E ε : Type) (d : Evaluate T E ε) (l : List (Arithm T V E)),
      (check_validity d l = .ok () ↔
        scanOk d l 0 = true ∧ finalBalance d l 0 = 1) ∧
      (check_validity d l = .error .NotEnoughOperand ↔
        scanOk d l 0 = false ∨ (scanOk d l 0 = true ∧ finalBalance d l 0 = 0)) ∧
      (check_validity d l = .error .TooManyOperands ↔
        scanOk d l 0 = true ∧ 2 ≤ finalBalance d l 0)) ∧
    intFromIter i32min i32max ["4", "+"] = .error (.OperandErr .NotEnoughOperand) ∧
    intFromIter i32min i32max ["3", "3", "4", "+"] =
      .error (.OperandErr .TooManyOperands) :=
  ⟨fun _ _ _ _ d l =>
    ⟨check_validity_ok_iff d l, check_validity_notEnough_iff d l,
      check_validity_tooMany_iff d l⟩,
    by decide, by decide⟩

/-- Claim C1 witness: the characterization instantiated at the classified
tokens of `4 +`, whose scan underflows. -/
theorem claim_C1_witness :
    check_validity (intEvaluate i32min i32max)
        ([.Operand 4, .Evaluator .Add] :
          List (Arithm Int DummyVariable IntEvaluator)) = .error .NotEnoughOperand ∧
      scanOk (intEvaluate i32min i32max)
        ([.Operand 4, .Evaluator .Add] :
          List (Arithm Int DummyVariable IntEvaluator)) 0 = false :=
  ⟨((claim_C1.1 Int DummyVariable IntEvaluator IntEvaluateErr
      (intEvaluate i32min i32max) [.Operand 4, .Evaluator .Add]).2.1).2
      (Or.inl (by decide)),
    by decide⟩

/-- Claim C2: for a validated expression and evaluators whose declared
arities agree with what their `evaluate` pops and pushes, no pop during
evaluation — inside an evaluator step or the final pop of the result —
ever finds an empty stack. -/
theorem claim_C2 {T V E ε : Type} (d : Evaluate T E ε) (e : Expression T V E)
    (hval : check_validity d e.expr = .ok ())
    (hhon : ∀ ev, Arithm.Evaluator ev ∈ e.expr → Honest d ev)
    (lookup : V → Option T) :
    evaluate_with_variables d lookup e ≠ .underflow := by
  have h1 : validityBalance d e.expr 0 = .ok 1 := by
    rw [check_validity] at hval
    cases hb : validityBalance d e.expr 0 with
    | error er => rw [hb] at hval; cases hval
    | ok n =>
      rw [hb] at hval
      rcases n with _ | _ | k
      · cases hval
      · rfl
      · cases hval
  obtain ⟨hnu, hlen⟩ := runTokens_no_underflow d lookup e.expr [] 1 h1 hhon
  unfold evaluate_with_variables
  cases hr : runTokens d lookup e.expr [] with
  | ok s =>
    have := hlen s hr
    cases s with
    | nil => simp at this
    | cons r s' => simp
  | err er => simp
  | underflow => exact absurd hr hnu
  | varNotFound => simp
  | panicked => simp

/-- Claim C2 witness: the validated expression `3 4 +` under the honest
`i32` evaluator never underflows. -/
theorem claim_C2_witness :
    evaluate_with_variables (intEvaluate i32min i32max)
        (fun _ : DummyVariable => (none : Option Int))
        ⟨2, [.Operand 3, .Operand 4, .Evaluator .Add]⟩ ≠ .underflow :=
  claim_C2 (intEvaluate i32min i32max)
    ⟨2, [.Operand 3, .Operand 4, .Evaluator .Add]⟩ (by decide)
    (fun ev _ => intEvaluate_Honest i32min i32max ev)
    (fun _ => none)

/-- Claim C3: evaluation stores the planner's `max_stack`, iterates the
tokens in order — pushing operands, pushing resolved variables, invoking
evaluators with their `Err` propagated immediately — and pops the single
result; `3 4 +` evaluates to `7` under the integer evaluator and to `7.0`
under the floating evaluator. -/
theorem claim_C3 :
    (∀ (A T V E ε e1 e2 e3 : Type) (d : Evaluate T E ε)
        (econv : A → Except e1 E) (vconv : A → Except e2 V)
        (oconv : A → Except e3 T) (toks : List A) (ex : Expression T V E),
      from_iter d econv vconv oconv toks = .ok ex →
        ex.max_stack = compute_stack_max d ex.expr) ∧
    (∀ (T V E ε : Type) (d : Evaluate T E ε) (lookup : V → Option T)
        (t : T) (rest : List (Arithm T V E)) (stack : List T),
      runTokens d lookup (.Operand t :: rest) stack =
        runTokens d lookup rest (t :: stack)) ∧
    (∀ (T V E ε : Type) (d : Evaluate T E ε) (lookup : V → Option T)
        (v : V) (t : T) (rest : List (Arithm T V E)) (stack : List T),
      lookup v = some t →
        runTokens d lookup (.Variable v :: rest) stack =
          runTokens d lookup rest (t :: stack)) ∧
    (∀ (T V E ε : Type) (d : Evaluate T E ε) (lookup : V → Option T)
        (ev : E) (er : ε) (rest : List (Arithm T V E)) (stack : List T),
      d.evaluate ev stack = .err er →
        runTokens d lookup (.Evaluator ev :: rest) stack = .err er) ∧
    evalIntTokens i32min i32max ["3", "4", "+"] = some (.ok 7) ∧
    evalFloatTokens ["3", "4", "+"] = some (.ok (.fin 7)) := by
  refine ⟨?_, ?_, ?_, ?_, by decide, ?_⟩
  · intro A T V E ε e1 e2 e3 d econv vconv oconv toks ex h
    exact (from_iter_ok d econv vconv oconv toks ex h).2.2
  · intro T V E ε d lookup t rest stack
    simp [runTokens]
  · intro T V E ε d lookup v t rest stack hl
    simp [runTokens, hl]
  · intro T V E ε d lookup ev er rest stack hstep
    simp [runTokens, hstep]
  · have h : evalFloatTokens ["3", "4", "+"] = some (.ok (.fin ((3 : ℚ) + 4))) := rfl
    rw [h]
    norm_num

/-- Claim C3 witness: the first conjunct applied to the parsed `3 4 +`,
and the error-propagation conjunct applied to a division by zero. -/
theorem claim_C3_witness :
    (⟨2, [.Operand 3, .Operand 4, .Evaluator .Add]⟩ :
        Expression Int DummyVariable IntEvaluator).max_stack =
      compute_stack_max (intEvaluate i32min i32max)
        ([.Operand 3, .Operand 4, .Evaluator .Add] :
          List (Arithm Int DummyVariable IntEvaluator)) ∧
    runTokens (intEvaluate i32min i32max) (fun _ : DummyVariable => none)
        [.Evaluator .Div] [0, 9] = .err (.InvalidDiv 9 0) :=
  ⟨claim_C3.1 String Int DummyVariable IntEvaluator IntEvaluateErr IntErr Unit
      ParseIntError (intEvaluate i32min i32max) IntEvaluator.try_from_ref
      DummyVariable.try_from_ref (parseSignedInt i32min i32max) ["3", "4", "+"]
      ⟨2, [.Operand 3, .Operand 4, .Evaluator .Add]⟩ (by decide),
    claim_C3.2.2.2.1 Int DummyVariable IntEvaluator IntEvaluateErr
      (intEvaluate i32min i32max) (fun _ => none) .Div (.InvalidDiv 9 0) [] [0, 9]
      (by decide)⟩

/-- Claim C4: `pop_two_operands` returns `(left, right)` with `left` the
operand pushed earlier and `right` the one pushed later (nearer the top);
consequently `4 3 -` evaluates to `1` and `9 3 /` to `3`. -/
theorem claim_C4 :
    (∀ (T : Type) (later earlier : T) (rest : List T),
      pop_two_operands (later :: earlier :: rest) = some ((earlier, later), rest)) ∧
    evalIntTokens i32min i32max ["4", "3", "-"] = some (.ok 1) ∧
    evalIntTokens i32min i32max ["9", "3", "/"] = some (.ok 3) :=
  ⟨fun _ later earlier rest => pop_two_operands_cons later earlier rest,
    by decide, by decide⟩

/-- Claim C5: for a validated token sequence (with running balances below
`2 ^ 63`, so that no `as usize` cast in the source wraps), the planner
returns the maximum value reached by the running balance of the same scan
the validator performs; the `max_stack` of the expression parsed from
`3 4 + 2 *` is 2. -/
theorem claim_C5 {T V E ε : Type} (d : Evaluate T E ε) (l : List (Arithm T V E))
    (hval : check_validity d l = .ok ())
    (hbound : ∀ x ∈ specBalances d l 0, x < 2 ^ 63) :
    compute_stack_max d l = maxStackSpec d l ∧
    (intFromIter i32min i32max ["3", "4", "+", "2", "*"]).toOption.map
      (fun e => e.max_stack) = some 2 := by
  refine ⟨?_, by decide⟩
  have hscan : scanOk d l 0 = true := ((check_validity_ok_iff d l).mp hval).1
  exact compute_stack_max_loop d l 0 0 hscan hbound

/-- Claim C5 witness: the planner equals the spec maximum on the classified
tokens of `3 4 + 2 *`, where it computes 2. -/
theorem claim_C5_witness :
    compute_stack_max (intEvaluate i32min i32max)
        ([.Operand 3, .Operand 4, .Evaluator .Add, .Operand 2, .Evaluator .Mul] :
          List (Arithm Int DummyVariable IntEvaluator)) =
      maxStackSpec (intEvaluate i32min i32max)
        ([.Operand 3, .Operand 4, .Evaluator .Add, .Operand 2, .Evaluator .Mul] :
          List (Arithm Int DummyVariable IntEvaluator)) ∧
    maxStackSpec (intEvaluate i32min i32max)
        ([.Operand 3, .Operand 4, .Evaluator .Add, .Operand 2, .Evaluator .Mul] :
          List (Arithm Int DummyVariable IntEvaluator)) = 2 :=
  ⟨(claim_C5 (intEvaluate i32min i32max)
      [.Operand 3, .Operand 4, .Evaluator .Add, .Operand 2, .Evaluator .Mul]
      (by decide) (by decide)).1,
    by decide⟩

/-- Claim C10: construction from the empty token sequence fails with
`NotEnoughOperand` (the balance scan ends at 0), so every successfully
constructed expression has at least one token. -/
theorem claim_C10 :
    (∀ (T V E ε : Type) (d : Evaluate T E ε),
      check_validity d ([] : List (Arithm T V E)) = .error .NotEnoughOperand) ∧
    (∀ (A T V E ε e1 e2 e3 : Type) (d : Evaluate T E ε)
        (econv : A → Except e1 E) (vconv : A → Except e2 V)
        (oconv : A → Except e3 T),
      from_iter d econv vconv oconv ([] : List A) =
        .error (.OperandErr .NotEnoughOperand)) ∧
    (∀ (A T V E ε e1 e2 e3 : Type) (d : Evaluate T E ε)
        (econv : A → Except e1 E) (vconv : A → Except e2 V)
        (oconv : A → Except e3 T) (toks : List A) (ex : Expression T V E),
      from_iter d econv vconv oconv toks = .ok ex → ex.expr ≠ []) := by
  refine ⟨?_, ?_, ?_⟩
  · intro T V E ε d
    rfl
  · intro A T V E ε e1 e2 e3 d econv vconv oconv
    rfl
  · intro A T V E ε e1 e2 e3 d econv vconv oconv toks ex h hnil
    have hv := (from_iter_ok d econv vconv oconv toks ex h).2.1
    rw [hnil] at hv
    cases hv

/-- Claim C10 witness: the nonemptiness invariant applied to the parsed
`3 4 +` expression. -/
theorem claim_C10_witness :
    (⟨2, [.Operand 3, .Operand 4, .Evaluator .Add]⟩ :
      Expression Int DummyVariable IntEvaluator).expr ≠ [] :=
  claim_C10.2.2 String Int DummyVariable IntEvaluator IntEvaluateErr IntErr Unit
    ParseIntError (intEvaluate i32min i32max) IntEvaluator.try_from_ref
    DummyVariable.try_from_ref (parseSignedInt i32min i32max) ["3", "4", "+"]
    ⟨2, [.Operand 3, .Operand 4, .Evaluator .Add]⟩ (by decide)

/-- Claim C6: classification attempts the conversions in the fixed
priority Evaluator, then Variable, then Operand, yielding the first
success, and when all three fail it fails with a composite error carrying
all three failure reasons; the tokens of `3 4 + &` fail with a composite
error referencing `&`. -/
theorem claim_C6 :
    (∀ (A T V E e1 e2 e3 : Type) (econv : A → Except e1 E)
        (vconv : A → Except e2 V) (oconv : A → Except e3 T) (tok : A),
      (∀ ev, econv tok = .ok ev →
        classify econv vconv oconv tok = .ok (.Evaluator ev)) ∧
      (∀ a v, econv tok = .error a → vconv tok = .ok v →
        classify econv vconv oconv tok = .ok (.Variable v)) ∧
      (∀ a b t, econv tok = .error a → vconv tok = .error b → oconv tok = .ok t →
        classify econv vconv oconv tok = .ok (.Operand t)) ∧
      (∀ a b c, econv tok = .error a → vconv tok = .error b → oconv tok = .error c →
        classify econv vconv oconv tok = .error (.InvalidToken a b c))) ∧
    intFromIter i32min i32max ["3", "4", "+", "&"] =
      .error (.InvalidToken (.InvalidExpr "&") () .InvalidDigit) := by
  refine ⟨?_, by decide⟩
  intro A T V E e1 e2 e3 econv vconv oconv tok
  refine ⟨?_, ?_, ?_, ?_⟩
  · intro ev he
    simp [classify, he]
  · intro a v he hv
    simp [classify, he, hv]
  · intro a b t he hv ho
    simp [classify, he, hv, ho]
  · intro a b c he hv ho
    simp [classify, he, hv, ho]

/-- Claim C6 witness: the composite-failure case applied to the token `&`
of the integer pipeline. -/
theorem claim_C6_witness :
    classify IntEvaluator.try_from_ref DummyVariable.try_from_ref
        (parseSignedInt i32min i32max) "&" =
      .error (.InvalidToken (.InvalidExpr "&") () .InvalidDigit) :=
  (claim_C6.1 String Int DummyVariable IntEvaluator IntErr Unit ParseIntError
      IntEvaluator.try_from_ref DummyVariable.try_from_ref
      (parseSignedInt i32min i32max) "&").2.2.2
    (.InvalidExpr "&") () .InvalidDigit (by decide) (by decide) (by decide)

/-- Claim C7 counterexample: the claim says overflow of negation is
returned as an `Err` value through the `Result` channel and never causes a
panic, but the `Neg` arm computes `-a` unchecked: on the tokens of
`-128 neg` at `i8` the negation of the minimum value overflows and the
evaluation panics (debug) or wraps (release) instead of returning any
`Err` — the outcome is `panicked`, not an `err _`. -/
theorem claim_C7_counterexample :
    evalIntTokens i8min i8max ["-128", "neg"] = some .panicked := by decide

/-- Claim C7 (amended): every integer-evaluator domain failure other than
overflow of negation — addition/subtraction/multiplication overflow,
division by zero or overflowing division, zero remainder divisor,
non-representable (negative) or oversized exponent — is detected during
`evaluate` and returned as an `Err` value; negation is performed unchecked
and is not covered.  `9 0 /` fails with `InvalidDiv` under checked-integer
evaluation but evaluates to positive infinity under floating evaluation. -/
theorem claim_C7_amended :
    (∀ (lo hi a b : Int) (rest : List Int), a + b < lo ∨ hi < a + b →
      IntEvaluator.evaluate lo hi .Add (b :: a :: rest) = .err (.AddOverflow a b)) ∧
    (∀ (lo hi a b : Int) (rest : List Int), a - b < lo ∨ hi < a - b →
      IntEvaluator.evaluate lo hi .Sub (b :: a :: rest) = .err (.SubUnderflow a b)) ∧
    (∀ (lo hi a b : Int) (rest : List Int), a * b < lo ∨ hi < a * b →
      IntEvaluator.evaluate lo hi .Mul (b :: a :: rest) = .err (.MulOverflow a b)) ∧
    (∀ (lo hi a b : Int) (rest : List Int), b = 0 ∨ (a = lo ∧ b = -1) →
      IntEvaluator.evaluate lo hi .Div (b :: a :: rest) = .err (.InvalidDiv a b)) ∧
    (∀ (lo hi a : Int) (rest : List Int),
      IntEvaluator.evaluate lo hi .Rem (0 :: a :: rest) = .err (.InvalidRem a 0)) ∧
    (∀ (lo hi a b : Int) (rest : List Int), b < 0 →
      IntEvaluator.evaluate lo hi .Pow (b :: a :: rest) = .err (.ConvertToU32 b)) ∧
    (∀ (lo hi a b : Int) (rest : List Int), 0 ≤ b →
      checked_pow lo hi a b.toNat = none →
      IntEvaluator.evaluate lo hi .Pow (b :: a :: rest) =
        .err (.PowOverflow a b.toNat)) ∧
    evalIntTokens i32min i32max ["9", "0", "/"] = some (.err (.InvalidDiv 9 0)) ∧
    evalFloatTokens ["9", "0", "/"] = some (.ok .inf) := by
  refine ⟨?_, ?_, ?_, ?_, ?_, ?_, ?_, by decide, by decide⟩
  · intro lo hi a b rest h
    have hc : checked_add lo hi a b = none := by
      unfold checked_add
      rw [if_neg (by omega)]
    simp [IntEvaluator.evaluate, pop_two_operands_cons, hc]
  · intro lo hi a b rest h
    have hc : checked_sub lo hi a b = none := by
      unfold checked_sub
      rw [if_neg (by omega)]
    simp [IntEvaluator.evaluate, pop_two_operands_cons, hc]
  · intro lo hi a b rest h
    have hc : checked_mul lo hi a b = none := by
      unfold checked_mul
      rw [if_neg (by omega)]
    simp [IntEvaluator.evaluate, pop_two_operands_cons, hc]
  · intro lo hi a b rest h
    have hc : checked_div lo hi a b = none := by
      unfold checked_div
      rw [if_pos h]
    simp [IntEvaluator.evaluate, pop_two_operands_cons, hc]
  · intro lo hi a rest
    simp [IntEvaluator.evaluate, pop_two_operands_cons]
  · intro lo hi a b rest h
    simp [IntEvaluator.evaluate, pop_two_operands_cons, h]
  · intro lo hi a b rest hb h
    simp [IntEvaluator.evaluate, pop_two_operands_cons, Int.not_lt.mpr hb, h]

/-- Claim C7 witness: the division conjunct applied to `9 / 0` at `i32`. -/
theorem claim_C7_witness :
    IntEvaluator.evaluate i32min i32max .Div [0, 9] = .err (.InvalidDiv 9 0) :=
  claim_C7_amended.2.2.2.1 i32min i32max 9 0 [] (Or.inl rfl)

/-- Claim C8 counterexample: the claim says that for every expression
containing a variable and every container in which the lookup finds
nothing, evaluation aborts; but on the validated expression `9 0 / $0 +`
with an empty container, the division-by-zero error is returned through
the `Result` channel before the variable is ever consulted — evaluation
returns `err (InvalidDiv 9 0)` and does not abort. -/
theorem claim_C8_counterexample :
    (varIntFromIter i32min i32max ["9", "0", "/", "$0", "+"]).toOption.map
        (fun e => e.expr.any fun a =>
          match a with | .Variable _ => true | _ => false) = some true ∧
    vecLookup ([] : List Int) (.mk 0) = none ∧
    evalVarIntTokens i32min i32max [] ["9", "0", "/", "$0", "+"] =
      some (.err (.InvalidDiv 9 0)) :=
  ⟨by decide, by decide, by decide⟩

/-- Claim C8 (amended): when evaluation reaches a Variable token — every
earlier token having evaluated without error or fault — whose lookup in
the container returns no value, evaluation aborts (the
`expect("TODO Variable not found!")` panic) instead of returning a typed
error; an evaluator error earlier in the sequence is however returned as
an `Err` before the variable is consulted. -/
theorem claim_C8_amended {T V E ε : Type} (d : Evaluate T E ε)
    (lookup : V → Option T) (pre post : List (Arithm T V E)) (v : V)
    (s : List T) (hpre : runTokens d lookup pre [] = .ok s)
    (hv : lookup v = none) :
    ∀ ms : Nat, evaluate_with_variables d lookup
      ⟨ms, pre ++ .Variable v :: post⟩ = .varNotFound := by
  intro ms
  unfold evaluate_with_variables
  rw [runTokens_append d lookup pre (.Variable v :: post) [], hpre]
  simp [runTokens, hv]

/-- Claim C8 witness: the abort on the expression `3 $0 +` with an empty
container. -/
theorem claim_C8_witness :
    evaluate_with_variables (intEvaluate i32min i32max) (vecLookup ([] : List Int))
      ⟨2, [.Operand 3, .Variable (.mk 0), .Evaluator .Add]⟩ = .varNotFound :=
  claim_C8_amended (intEvaluate i32min i32max) (vecLookup ([] : List Int))
    [.Operand 3] [.Evaluator .Add] (.mk 0) [3] (by decide) (by decide) 2

/-- Claim C9 counterexample: the claim says rendering reproduces every
canonically-spaced text that parses successfully; but `+3 4 +` is
single-spaced and parses successfully (Rust's integer `FromStr` accepts a
leading `+`), yet it renders back as `3 4 +`, not `+3 4 +`. -/
theorem claim_C9_counterexample :
    String.intercalate " " ["+3", "4", "+"] = "+3 4 +" ∧
    renderParseInt ["+3", "4", "+"] = some "3 4 +" ∧
    "3 4 +" ≠ "+3 4 +" :=
  ⟨by decide, by decide, by decide⟩

/-- Claim C9 (amended): rendering emits each token's canonical text in
original order with exactly one space between consecutive tokens, so
rendering a parsed expression reproduces the original token sequence
exactly whenever every token is canonical — i.e. is itself the rendering
of the token it classifies to (as in `3 4 +`); tokens such as `+3` or
`007` parse but are not canonical. -/
theorem claim_C9_amended (toks : List String)
    (e : Expression Int DummyVariable IntEvaluator)
    (hok : intFromIter i32min i32max toks = .ok e)
    (hcanon : ∀ tok ∈ toks, canonicalTok tok) :
    renderExprInt e = some (String.intercalate " " toks) := by
  have hclass := (from_iter_ok (intEvaluate i32min i32max)
    IntEvaluator.try_from_ref DummyVariable.try_from_ref
    (parseSignedInt i32min i32max) toks e hok).1
  have hf := classifyAll_forall2 IntEvaluator.try_from_ref
    DummyVariable.try_from_ref (parseSignedInt i32min i32max) toks e.expr hclass
  have hr := render_of_canonical toks e.expr hf hcanon
  unfold renderExprInt
  rw [hr]
  rfl

/-- Claim C9 witness: the round trip on the canonical tokens of `3 4 +`. -/
theorem claim_C9_witness :
    renderExprInt ⟨2, [.Operand 3, .Operand 4, .Evaluator .Add]⟩ =
      some (String.intercalate " " ["3", "4", "+"]) :=
  claim_C9_amended ["3", "4", "+"] ⟨2, [.Operand 3, .Operand 4, .Evaluator .Add]⟩
    (by decide) (by decide)

end Ripin
